import Mathlib

/- Verification of the text-file → chunked vector-store pipeline of
   `langchain-data-processing-tutorials`.  The pipeline itself is
   `src/langchain_data_processing_tutorials/text_file/text_to_vs.py`
   (with a reduced copy in `src/misc/utils.py`).  External collaborators
   (the recursive character text splitter, the embedding model, the Chroma
   vector store and the retriever facade) are library code; where a claim
   depends on their behaviour they are modelled from the specification's
   collaborator contracts, and each such definition is marked
   "Modelled from the spec". -/

/-- Errors surfaced by the pipeline.  `notFound` embeds Python's
`FileNotFoundError` (the spec's `NotFoundError`); `valueError` embeds the
`ValueError` raised by tuple unpacking in metadata parsing (filed by the
spec's taxonomy under `InvalidArgumentError`); `indexError` embeds a
Python `IndexError`; `nameError` embeds a Python `NameError`;
`invalidArgument` is the `InvalidArgumentError` of the retriever-facade
contract (an unrecognized search-strategy tag). -/
inductive Err
  | notFound
  | valueError
  | indexError
  | nameError
  | invalidArgument
deriving DecidableEq, Repr

/-- A langchain `Document`: page content plus a string-keyed metadata
mapping, modelled as an insertion-ordered association list (as Python
dicts are). -/
structure Document where
  page_content : String
  metadata : List (String × String)
deriving DecidableEq, Repr

/-- Lookup in an association list (the unique binding for a key, since
`aset` never duplicates keys). -/
def alookup {α : Type} : List (String × α) → String → Option α
  | [], _ => none
  | (k', v) :: rest, k => if k' = k then some v else alookup rest k

/-- Python-dict style insert: overwrite in place if the key exists, else
append at the end (Python dicts keep first-insertion order on update). -/
def aset {α : Type} : List (String × α) → String → α → List (String × α)
  | [], k, v => [(k, v)]
  | (k', v') :: rest, k, v =>
      if k' = k then (k, v) :: rest else (k', v') :: aset rest k v

/-! ### The recursive character text splitter

The splitter is langchain library code, absent from `src/`; the
definitions below are modelled from the spec's §4.2 algorithm
description.  Text is handled as `List Char` (the source configures
`length_function=len`, i.e. character count). -/

/-- Does the list start with the given pattern? -/
def startsWithSep : List Char → List Char → Bool
  | _, [] => true
  | [], _ :: _ => false
  | c :: cs, s :: ss => (c == s) && startsWithSep cs ss

/-- Python `str.split(sep)` for a non-empty separator, over character
lists, with an explicit fuel argument (the list length suffices, since
every step consumes at least one character) so that the definition is
structurally recursive and computes by `rfl`. -/
def splitOnSepAux (sep : List Char) : Nat → List Char → List (List Char)
  | _, [] => [[]]
  | 0, l => [l]
  | fuel + 1, c :: cs =>
      if startsWithSep (c :: cs) sep then
        [] :: splitOnSepAux sep fuel ((c :: cs).drop sep.length)
      else
        match splitOnSepAux sep fuel cs with
        | [] => [[c]]
        | p :: ps => (c :: p) :: ps

/-- Python `str.split(sep)` for a non-empty separator. -/
def splitOnSep (sep l : List Char) : List (List Char) :=
  splitOnSepAux sep l.length l

/-- Modelled from the spec: one level of the separator hierarchy
("attempt to split the current text on the first separator in the
list"); the empty separator means "split anywhere", i.e. into single
characters. -/
def splitPieces (sep t : List Char) : List (List Char) :=
  if sep = [] then t.map (fun c => [c]) else splitOnSep sep t

/-- Modelled from the spec: recursive-descent splitting — split on the
first separator and recurse with the remaining (finer) separators into
each piece still longer than `chunkSize`; a piece that survives the whole
hierarchy is atomic and is kept as-is. -/
def splitRec (chunkSize : Nat) : List (List Char) → List Char → List (List Char)
  | [], t => [t]
  | s :: rest, t =>
      (splitPieces s t).flatMap
        (fun p => if chunkSize < p.length then splitRec chunkSize rest p else [p])

/-- Trailing part of the just-emitted buffer re-included at the start of
the next buffer: at most `ov` characters, trimmed further so that the
next piece still fits in `chunkSize` (the spec's "overlap by up to
`chunk_overlap` units, never more"). -/
def overlapTail (chunkSize ov plen : Nat) (buf : List Char) : List Char :=
  buf.drop (buf.length - min ov (chunkSize - plen))

/-- Modelled from the spec: greedily merge adjacent pieces into a running
buffer until adding the next piece would exceed `chunkSize`; emit the
buffer as a chunk, and start the next buffer from the overlap tail of the
emitted chunk.  An oversized atomic piece starts a buffer of its own (the
overlap tail is trimmed to nothing) and is hence emitted as-is. -/
def mergeAux (chunkSize ov : Nat) (buf : List Char) : List (List Char) → List (List Char)
  | [] => if buf = [] then [] else [buf]
  | p :: ps =>
      if buf.length + p.length ≤ chunkSize then
        mergeAux chunkSize ov (buf ++ p) ps
      else
        let rest := mergeAux chunkSize ov (overlapTail chunkSize ov p.length buf ++ p) ps
        if buf = [] then rest else buf :: rest

/-- The default separator hierarchy of `RecursiveCharacterTextSplitter`:
double newline, newline, space, then "split anywhere". -/
def defaultSeparators : List (List Char) := [['\n', '\n'], ['\n'], [' '], []]

/-- Modelled from the spec: `split_text` of the recursive character
splitter — recursive-descent splitting followed by the greedy merge. -/
def RecursiveCharacterTextSplitter.split_text (chunkSize ov : Nat) (t : List Char) :
    List (List Char) :=
  mergeAux chunkSize ov [] (splitRec chunkSize defaultSeparators t)

/-- `splitter.split_documents(docs)` as configured at `text_to_vs.py`
lines 30–37: `chunk_size=1000`, `chunk_overlap=200`,
`length_function=len`; each chunk copies its parent document's metadata
verbatim. -/
def split_documents (docs : List Document) : List Document :=
  docs.flatMap (fun d =>
    (RecursiveCharacterTextSplitter.split_text 1000 200 d.page_content.data).map
      (fun c => { page_content := String.mk c, metadata := d.metadata }))

/-- A chunk is atomic when no separator in the hierarchy can shrink it:
splitting it on any separator of the hierarchy returns it unchanged. -/
def IsAtomicPiece (c : List Char) : Prop :=
  ∀ s ∈ defaultSeparators, splitPieces s c = [c]

/-! ### Filesystem / persisted-state model -/

/-- Persisted content of a Chroma store: the indexed chunks together with
their embedding vectors. -/
structure StoreData where
  chunks : List Document
  embs : List (List Int)
deriving DecidableEq, Repr

/-- The world the pipeline runs against: readable text files, existing
directories with their entries, and the persisted store data keyed by
persistence directory.  A path absent from `files` is missing or
unreadable. -/
structure World where
  files : List (String × String)
  dirs : List (String × List String)
  stores : List (String × StoreData)
deriving DecidableEq, Repr

/-- `os.path.isdir`. -/
def isdir (w : World) (p : String) : Bool :=
  (alookup w.dirs p).isSome

/-- `os.listdir` (empty for a non-existent directory; in the pipeline it
is only consulted after `isdir`). -/
def listdir (w : World) (p : String) : List String :=
  (alookup w.dirs p).getD []

/-- `TextLoader(...).load()`, translated from the loader code quoted at
`text_to_vs.py` lines 72–76: open the file (raising `FileNotFoundError`
if it is missing or unreadable), read it whole, and return one `Document`
with `metadata = {"source": file_path}`. -/
def TextLoader.load (w : World) (file_path : String) : Except Err (List Document) :=
  match alookup w.files file_path with
  | none => .error .notFound
  | some text => .ok [{ page_content := text, metadata := [("source", file_path)] }]

/-- The four artifact files old Chroma writes into `db_dir/index` — the
spec's §6 persisted-state layout contract ("a recognizable index
subdirectory (`index/`) once built" with "a minimum file count"). -/
def chromaIndexFiles : List String :=
  ["id_to_uuid.pkl", "index.bin", "index_metadata.pkl", "uuid_to_id.pkl"]

/-- Outcome of a fresh index build: the world after persisting, the
built store data, and the number of embedding calls made. -/
structure BuildResult where
  world : World
  data : StoreData
  embedCalls : Nat
deriving DecidableEq, Repr

/-- Modelled from the spec: `Chroma.from_documents(docs, embeddings,
persist_directory=db_dir)` — call the embedding function once per chunk,
build the index over (content, metadata, embedding) triples and persist
it into `db_dir` (populating the `index/` subdirectory). -/
def Chroma.from_documents (embed : String → List Int) (docs : List Document)
    (db_dir : String) (w : World) : BuildResult :=
  { world := { w with
      dirs := aset w.dirs (db_dir ++ "/index") chromaIndexFiles,
      stores := aset w.stores db_dir
        { chunks := docs, embs := docs.map (fun d => embed d.page_content) } },
    data := { chunks := docs, embs := docs.map (fun d => embed d.page_content) },
    embedCalls := docs.length }

/-- Modelled from the spec: `Chroma(persist_directory=db_dir, ...)` —
load the persisted handle from the directory; no embedding call is made
on any current chunk.  If the directory holds no recognizable store data
the handle is empty. -/
def Chroma.loadPersisted (w : World) (db_dir : String) : Option StoreData :=
  alookup w.stores db_dir

/-- The search-strategy tags recognized by the retriever facade
(`text_to_vs.py` docstring: options are "similarity", "mmr"). -/
def allowedSearchTypes : List String := ["similarity", "mmr"]

/-- A retriever: a stateless facade holding the store handle and the
strategy tag. -/
structure Retriever where
  store : Option StoreData
  searchType : String
deriving DecidableEq, Repr

/-- Modelled from the spec: `db.as_retriever(search_type=...)` — validate
that the strategy tag is recognized (else `InvalidArgumentError`) and do
nothing beyond wrapping the store handle with the tag. -/
def as_retriever (db : Option StoreData) (search_type : String) : Except Err Retriever :=
  if search_type ∈ allowedSearchTypes then
    .ok { store := db, searchType := search_type }
  else
    .error .invalidArgument

/-- The index-presence condition of `text_to_vs.py` line 46:
`os.path.isdir(os.path.join(db_dir, "index")) and
len(os.listdir(os.path.join(db_dir, "index"))) > 3`. -/
def indexPresent (w : World) (db_dir : String) : Bool :=
  isdir w (db_dir ++ "/index") && decide (3 < (listdir w (db_dir ++ "/index")).length)

/-- Result of a successful `get_vs` run.  `pyReturn` is the value the
Python function hands back to its caller (`None`, as the body has no
return statement); the other fields are instrumentation: the world after
the run, the number of embedding calls made on the current chunks, and
the retriever constructed (and then discarded) in the final step. -/
structure GetVsResult where
  world : World
  embedCalls : Nat
  retriever : Retriever
  pyReturn : Option Retriever
deriving DecidableEq, Repr

/-- `get_vs(txt_path, db_dir, search_type)` of `text_to_vs.py`:
load the file into one document, split it (chunk_size 1000, overlap 200),
then either load the persisted index (when `db_dir/index` exists with
more than 3 entries) or embed the chunks and build and persist a fresh
index; finally wrap the store in a retriever, which is discarded — the
function returns `None`. -/
def get_vs (embed : String → List Int) (w : World)
    (txt_path db_dir search_type : String) : Except Err GetVsResult :=
  match TextLoader.load w txt_path with
  | .error e => .error e
  | .ok docs =>
    if indexPresent w db_dir then
      match as_retriever (Chroma.loadPersisted w db_dir) search_type with
      | .error e => .error e
      | .ok r => .ok { world := w, embedCalls := 0, retriever := r, pyReturn := none }
    else
      match as_retriever (some (Chroma.from_documents embed (split_documents docs) db_dir w).data)
          search_type with
      | .error e => .error e
      | .ok r =>
          .ok { world := (Chroma.from_documents embed (split_documents docs) db_dir w).world,
                embedCalls := (Chroma.from_documents embed (split_documents docs) db_dir w).embedCalls,
                retriever := r, pyReturn := none }

/-! ### The CLI `main` -/

/-- The CLI arguments after `argparse`: the one positional text-file path
and the repeatable `--metadata` option (`nargs='+'`, `action='append'`
yields one non-empty token list per occurrence; `[]` models an absent
option, which Python's `if args.metadata:` skips just like `None`). -/
structure CliArgs where
  text_file_path : String
  metadata : List (List String)
deriving DecidableEq, Repr

/-- Python `str.split(sep)` for a single-character separator, structural
on the character list (used for `item[0].split('=')`). -/
def splitOnChar (sep : Char) : List Char → List (List Char)
  | [] => [[]]
  | c :: cs =>
      match splitOnChar sep cs with
      | [] => [[c]]
      | p :: ps => if c = sep then [] :: p :: ps else (c :: p) :: ps

/-- One iteration of the metadata loop of `main` (`text_to_vs.py` lines
91–93): `key, value = item[0].split('=')`.  Unpacking into exactly two
names raises `ValueError` unless the split yields exactly two pieces;
`item[0]` on an empty occurrence would raise `IndexError`, but `argparse`
`nargs='+'` guarantees non-emptiness. -/
def parseEntry : List String → Except Err (String × String)
  | [] => .error .indexError
  | tok :: _ =>
      match splitOnChar '=' tok.data with
      | [k, v] => .ok (String.mk k, String.mk v)
      | _ => .error .valueError

/-- The metadata loop of `main`: fold the entries into a dict with
`metadata[key] = value`, stopping at the first unpacking error. -/
def parseMetadataAux (acc : List (String × String)) :
    List (List String) → Except Err (List (String × String))
  | [] => .ok acc
  | item :: rest =>
      match parseEntry item with
      | .error e => .error e
      | .ok (k, v) => parseMetadataAux (aset acc k v) rest

/-- Metadata parsing of `main`, starting from the empty dict. -/
def parseMetadata (items : List (List String)) : Except Err (List (String × String)) :=
  parseMetadataAux [] items

deriving instance DecidableEq for Except

/-- Outcome of a `main` run: the process result (`.ok ()` would be exit
code 0, `.error e` a non-zero exit with the uncaught exception `e` as
diagnostic), the metadata dict if parsing completed, and the list of text
files read. -/
structure MainOutcome where
  result : Except Err Unit
  parsedMetadata : Option (List (String × String))
  fileReads : List String
deriving DecidableEq, Repr

/-- `main()` of `text_to_vs.py` (lines 83–97, identical in
`misc/utils.py`): after `argparse`, parse the `--metadata` entries; then
the body executes `create_document(args.text_file_path, metadata)` — but
`create_document` is defined nowhere in the repository and is not
imported, so Python raises `NameError` there, before any file I/O on the
text file is attempted.  No branch of `main` ever reads the text file. -/
def mainRun (_w : World) (args : CliArgs) : MainOutcome :=
  match parseMetadata args.metadata with
  | .error e => { result := .error e, parsedMetadata := none, fileReads := [] }
  | .ok md => { result := .error .nameError, parsedMetadata := some md, fileReads := [] }

/-- The single document `TextLoader.load` returns for a readable file. -/
def loadedDoc (txt_path content : String) : Document :=
  { page_content := content, metadata := [("source", txt_path)] }

/-- The store data a fresh build persists for a given source file: its
chunks and one embedding per chunk. -/
def freshStore (embed : String → List Int) (txt_path content : String) : StoreData :=
  { chunks := split_documents [loadedDoc txt_path content],
    embs := (split_documents [loadedDoc txt_path content]).map (fun d => embed d.page_content) }

/-! ### Concrete inputs used by witnesses -/

/-- A concrete embedding function for witnesses. -/
def embedLen (s : String) : List Int := [(s.length : Int)]

/-- A world with one readable text file and an empty persistence area. -/
def w0 : World := { files := [("t.txt", "hi")], dirs := [], stores := [] }

/-- A world with the text files used by the `main` evaluations. -/
def mdWorld : World :=
  { files := [("notes.txt", "hello world"), ("doc.txt", "text")], dirs := [], stores := [] }

/-- A world with one readable text file, for the loader-contract witness. -/
def w4 : World := { files := [("a.txt", "hello")], dirs := [], stores := [] }

/-! ### Helper lemmas -/

lemma alookup_aset_self {α : Type} (l : List (String × α)) (k : String) (v : α) :
    alookup (aset l k v) k = some v := by
  induction l with
  | nil => simp [aset, alookup]
  | cons hd tl ih =>
    obtain ⟨k', v'⟩ := hd
    by_cases h : k' = k
    · simp [aset, h, alookup]
    · simp [aset, h, alookup, ih]

lemma splitOnChar_ne_nil (sep : Char) (l : List Char) : splitOnChar sep l ≠ [] := by
  cases l with
  | nil => simp [splitOnChar]
  | cons c cs =>
    simp only [splitOnChar]
    cases h : splitOnChar sep cs with
    | nil => simp
    | cons p ps =>
      show (if c = sep then [] :: p :: ps else (c :: p) :: ps) ≠ []
      by_cases hc : c = sep <;> simp [hc]

lemma splitOnChar_length (sep : Char) (l : List Char) :
    (splitOnChar sep l).length = l.count sep + 1 := by
  induction l with
  | nil => simp [splitOnChar]
  | cons c cs ih =>
    simp only [splitOnChar]
    cases h : splitOnChar sep cs with
    | nil => exact absurd h (splitOnChar_ne_nil sep cs)
    | cons p ps =>
      rw [h] at ih
      show (if c = sep then [] :: p :: ps else (c :: p) :: ps).length = (c :: cs).count sep + 1
      by_cases hc : c = sep <;>
        simp only [hc, if_pos, if_neg, List.length_cons, List.count_cons, beq_iff_eq,
          if_true, if_false, List.length_cons] at ih ⊢ <;>
        simp [hc] <;> omega

lemma parseEntry_ok_iff (t : String) (r : List String) :
    (∃ kv, parseEntry (t :: r) = .ok kv) ↔ t.data.count '=' = 1 := by
  have hlen := splitOnChar_length '=' t.data
  simp only [parseEntry]
  cases h : splitOnChar '=' t.data with
  | nil => exact absurd h (splitOnChar_ne_nil _ _)
  | cons p ps =>
    rw [h] at hlen
    cases ps with
    | nil => simp at hlen ⊢; omega
    | cons q qs =>
      cases qs with
      | nil => simp at hlen ⊢; omega
      | cons u us => simp at hlen ⊢; omega

lemma parseEntry_error_of (t : String) (r : List String) (h : t.data.count '=' ≠ 1) :
    parseEntry (t :: r) = .error Err.valueError := by
  have hlen := splitOnChar_length '=' t.data
  simp only [parseEntry]
  cases hs : splitOnChar '=' t.data with
  | nil => exact absurd hs (splitOnChar_ne_nil _ _)
  | cons p ps =>
    rw [hs] at hlen
    cases ps with
    | nil => rfl
    | cons q qs =>
      cases qs with
      | nil => exfalso; simp at hlen; omega
      | cons u us => rfl

lemma parseMetadataAux_error (items : List (List String)) (acc : List (String × String))
    (hne : ∀ e ∈ items, e ≠ [])
    (hbad : ∃ e ∈ items, (e.headD "").data.count '=' ≠ 1) :
    parseMetadataAux acc items = .error Err.valueError := by
  induction items generalizing acc with
  | nil => obtain ⟨e, he, _⟩ := hbad; cases he
  | cons item rest ih =>
    have hitem : item ≠ [] := hne item (List.mem_cons_self _ _)
    cases item with
    | nil => exact absurd rfl hitem
    | cons t r_ =>
      cases hok : parseEntry (t :: r_) with
      | error e =>
        have he : e = Err.valueError := by
          by_cases hc : t.data.count '=' = 1
          · obtain ⟨kv, hkv⟩ := (parseEntry_ok_iff t r_).mpr hc
            rw [hok] at hkv; cases hkv
          · have := parseEntry_error_of t r_ hc
            rw [hok] at this
            exact (Except.error.injEq _ _).mp this
        subst he
        simp [parseMetadataAux, hok]
      | ok kv =>
        obtain ⟨k, v⟩ := kv
        simp only [parseMetadataAux, hok]
        apply ih
        · intro e he; exact hne e (List.mem_cons_of_mem _ he)
        · obtain ⟨e, he, hbadc⟩ := hbad
          rcases List.mem_cons.mp he with rfl | he'
          · exfalso
            have hc : t.data.count '=' = 1 := (parseEntry_ok_iff t r_).mp ⟨(k, v), hok⟩
            simp at hbadc
            exact hbadc hc
          · exact ⟨e, he', hbadc⟩

lemma mergeAux_length_le (chunkSize ov : Nat) (pieces : List (List Char)) :
    ∀ (buf : List Char),
      (∀ p ∈ pieces, p.length ≤ chunkSize) → buf.length ≤ chunkSize →
      ∀ c ∈ mergeAux chunkSize ov buf pieces, c.length ≤ chunkSize := by
  induction pieces with
  | nil =>
    intro buf _ hbuf c hc
    simp only [mergeAux] at hc
    split at hc
    · simp at hc
    · rw [List.mem_singleton] at hc
      exact hc ▸ hbuf
  | cons p ps ih =>
    intro buf hp hbuf c hc
    have hplen : p.length ≤ chunkSize := hp p (List.mem_cons_self p ps)
    have hps : ∀ q ∈ ps, q.length ≤ chunkSize := fun q hq => hp q (List.mem_cons_of_mem p hq)
    have hbuf' : (overlapTail chunkSize ov p.length buf ++ p).length ≤ chunkSize := by
      simp only [overlapTail, List.length_append, List.length_drop]
      omega
    simp only [mergeAux] at hc
    split at hc
    · exact ih (buf ++ p) hps (by simpa using ‹buf.length + p.length ≤ chunkSize›) c hc
    · split at hc
      · exact ih _ hps hbuf' c hc
      · rcases List.mem_cons.mp hc with rfl | hc'
        · exact hbuf
        · exact ih _ hps hbuf' c hc'

lemma splitRec_small_last (chunkSize : Nat) (h1 : 1 ≤ chunkSize) :
    ∀ t p, p ∈ splitRec chunkSize [[]] t → p.length ≤ chunkSize := by
  intro t p hp
  simp only [splitRec, splitPieces, if_pos rfl] at hp
  rw [List.mem_flatMap] at hp
  obtain ⟨q, hq, hpq⟩ := hp
  rw [if_pos trivial, List.mem_map] at hq
  obtain ⟨ch, _, hq2⟩ := hq
  subst hq2
  rw [ite_self, List.mem_singleton] at hpq
  subst hpq
  simpa using h1

lemma splitRec_small_cons (chunkSize : Nat) (s : List Char) (rest : List (List Char))
    (ih : ∀ t p, p ∈ splitRec chunkSize rest t → p.length ≤ chunkSize) :
    ∀ t p, p ∈ splitRec chunkSize (s :: rest) t → p.length ≤ chunkSize := by
  intro t p hp
  simp only [splitRec] at hp
  rw [List.mem_flatMap] at hp
  obtain ⟨q, hq, hpq⟩ := hp
  by_cases hb : chunkSize < q.length
  · rw [if_pos hb] at hpq
    exact ih q p hpq
  · rw [if_neg hb] at hpq
    rw [List.mem_singleton] at hpq
    subst hpq
    omega

lemma splitRec_default_small (t p : List Char)
    (hp : p ∈ splitRec 1000 defaultSeparators t) : p.length ≤ 1000 := by
  have h0 := splitRec_small_last 1000 (by omega)
  have h1 := splitRec_small_cons 1000 [' '] [[]] h0
  have h2 := splitRec_small_cons 1000 ['\n'] ([' '] :: [[]]) h1
  have h3 := splitRec_small_cons 1000 ['\n', '\n'] (['\n'] :: [' '] :: [[]]) h2
  exact h3 t p hp

/-! ### Claim theorems -/

/-- Claim C6: for every input text, every chunk produced by the splitter
configured with `chunk_size=1000` has content of length at most 1000,
except a chunk that is a single atomic piece no separator in the
hierarchy can shrink, which is emitted as-is even when longer than
`chunk_size`.  With the default hierarchy, whose finest separator splits
anywhere, every chunk in fact satisfies the bound outright. -/
theorem c6_chunk_size_bound (docs : List Document) (c : Document)
    (hc : c ∈ split_documents docs) :
    c.page_content.length ≤ 1000 ∨ IsAtomicPiece c.page_content.data := by
  left
  simp only [split_documents] at hc
  rw [List.mem_flatMap] at hc
  obtain ⟨d, _, hcd⟩ := hc
  rw [List.mem_map] at hcd
  obtain ⟨ch, hch, hceq⟩ := hcd
  subst hceq
  simp only [RecursiveCharacterTextSplitter.split_text] at hch
  have hsmall : ∀ p ∈ splitRec 1000 defaultSeparators d.page_content.data, p.length ≤ 1000 :=
    fun p hp => splitRec_default_small _ p hp
  exact mergeAux_length_le 1000 200 _ [] hsmall (by simp) ch hch

/-- Witness for C6 at a concrete document. -/
theorem c6_witness :
    ({ page_content := "ab", metadata := [] } : Document) ∈
        split_documents [{ page_content := "ab", metadata := [] }] ∧
    (({ page_content := "ab", metadata := [] } : Document).page_content.length ≤ 1000 ∨
      IsAtomicPiece ({ page_content := "ab", metadata := [] } : Document).page_content.data) :=
  ⟨by decide, c6_chunk_size_bound [{ page_content := "ab", metadata := [] }] _ (by decide)⟩

/-- Claim C10: metadata parsing in `main` succeeds for a `--metadata`
entry if and only if the entry's first token contains exactly one `'='`
character; a token with zero `'='` or with two or more raises the
unpacking `ValueError`. -/
theorem c10_exactly_one_equals (t : String) (r : List String) :
    ((∃ kv, parseEntry (t :: r) = .ok kv) ↔ t.data.count '=' = 1) ∧
    (t.data.count '=' ≠ 1 → parseEntry (t :: r) = .error Err.valueError) :=
  ⟨parseEntry_ok_iff t r, fun h => parseEntry_error_of t r h⟩

/-- Witness for C10 at a concrete malformed entry. -/
theorem c10_witness :
    "a=b=c".data.count '=' ≠ 1 ∧ parseEntry ["a=b=c"] = .error Err.valueError :=
  ⟨by decide, (c10_exactly_one_equals "a=b=c" []).2 (by decide)⟩

/-- Claim C3: for every CLI invocation carrying a `--metadata` entry with
no `'='` character, `main` exits non-zero with the metadata-parsing error
(the `ValueError` the spec's taxonomy files under `InvalidArgumentError`),
raised during metadata parsing — the metadata dict is never completed —
and before any file I/O on the text file is attempted. -/
theorem c3_malformed_metadata (w : World) (args : CliArgs)
    (hne : ∀ e ∈ args.metadata, e ≠ [])
    (e : List String) (he : e ∈ args.metadata)
    (hnoeq : ∀ tok ∈ e, ¬ '=' ∈ tok.data) :
    (mainRun w args).result = .error Err.valueError ∧
    (mainRun w args).parsedMetadata = none ∧
    (mainRun w args).fileReads = [] := by
  have hmeta : parseMetadata args.metadata = .error Err.valueError := by
    apply parseMetadataAux_error _ _ hne
    refine ⟨e, he, ?_⟩
    cases e with
    | nil => exact absurd rfl (hne _ he)
    | cons t r_ =>
      have hmem : ¬ '=' ∈ t.data := hnoeq t (List.mem_cons_self _ _)
      simp [List.count_eq_zero_of_not_mem hmem]
  simp [mainRun, hmeta]

/-- Witness for C3 at a concrete malformed invocation. -/
theorem c3_witness :
    (mainRun w0 { text_file_path := "t.txt", metadata := [["foo"]] }).result =
        .error Err.valueError ∧
    (mainRun w0 { text_file_path := "t.txt", metadata := [["foo"]] }).parsedMetadata = none ∧
    (mainRun w0 { text_file_path := "t.txt", metadata := [["foo"]] }).fileReads = [] :=
  c3_malformed_metadata w0 _ (by decide) ["foo"] (by decide) (by decide)

/-- Claim C4: for every file path given to the document loader, loading
fails with `NotFoundError` exactly when the path does not exist or is
unreadable, and otherwise returns exactly one `Document` whose content
equals the full text content of the file and whose metadata contains
`source` mapped to that path. -/
theorem c4_loader_contract (w : World) (path : String) :
    (TextLoader.load w path = .error Err.notFound ↔ alookup w.files path = none) ∧
    (∀ text, alookup w.files path = some text →
      TextLoader.load w path =
        .ok [{ page_content := text, metadata := [("source", path)] }]) ∧
    (∀ docs, TextLoader.load w path = .ok docs →
      docs.length = 1 ∧
      ∀ d ∈ docs, some d.page_content = alookup w.files path ∧
        alookup d.metadata "source" = some path) := by
  cases h : alookup w.files path with
  | none => simp [TextLoader.load, h]
  | some text =>
    refine ⟨by simp [TextLoader.load, h], ?_, ?_⟩
    · intro text' htext'
      cases htext'
      simp [TextLoader.load, h]
    · intro docs hdocs
      simp only [TextLoader.load, h] at hdocs
      cases hdocs
      refine ⟨rfl, ?_⟩
      intro d hd
      rw [List.mem_singleton] at hd
      subst hd
      simp [h, alookup]

/-- Witness for C4 at a concrete readable file. -/
theorem c4_witness :
    alookup w4.files "a.txt" = some "hello" ∧
    TextLoader.load w4 "a.txt" =
      .ok [{ page_content := "hello", metadata := [("source", "a.txt")] }] :=
  ⟨by decide, (c4_loader_contract w4 "a.txt").2.1 "hello" (by decide)⟩

/-- Claim C9: constructing the retriever facade performs no work beyond
validating the search-strategy tag — for every recognized tag it succeeds
and merely wraps the store handle with the tag, and for every
unrecognized tag it fails with `InvalidArgumentError`. -/
theorem c9_retriever_validation (db : Option StoreData) (tag : String) :
    (tag ∈ allowedSearchTypes →
      as_retriever db tag = .ok { store := db, searchType := tag }) ∧
    (tag ∉ allowedSearchTypes →
      as_retriever db tag = .error Err.invalidArgument) := by
  constructor <;> intro h <;> simp [as_retriever, h]

/-- Witness for C9 at a recognized and an unrecognized tag. -/
theorem c9_witness :
    ("similarity" ∈ allowedSearchTypes ∧
      as_retriever none "similarity" = .ok { store := none, searchType := "similarity" }) ∧
    ("bogus" ∉ allowedSearchTypes ∧
      as_retriever none "bogus" = .error Err.invalidArgument) :=
  ⟨⟨by decide, (c9_retriever_validation none "similarity").1 (by decide)⟩,
   ⟨by decide, (c9_retriever_validation none "bogus").2 (by decide)⟩⟩

/-- Claim C2 is a code bug: on the invocation
`notes.txt --metadata lang=en --metadata author=jane` with `notes.txt`
readable, metadata parsing does produce
`{lang: "en", author: "jane"}`, but `main` then raises `NameError`
(`create_document` is defined nowhere in the repository and is not
imported), so `main` does not succeed and no document is created. -/
theorem c2_main_name_error :
    (mainRun mdWorld { text_file_path := "notes.txt",
                       metadata := [["lang=en"], ["author=jane"]] }).parsedMetadata =
      some [("lang", "en"), ("author", "jane")] ∧
    (mainRun mdWorld { text_file_path := "notes.txt",
                       metadata := [["lang=en"], ["author=jane"]] }).result =
      .error Err.nameError := by decide

/-- Claim C8 is a code bug in its exit-code conjunct: even on a
well-formed invocation with a readable file, `main` raises `NameError`
(`create_document` is undefined), so exit code 0 is unreachable — every
invocation exits non-zero. -/
theorem c8_exit_zero_unreachable :
    (mainRun mdWorld { text_file_path := "doc.txt", metadata := [] }).result =
      .error Err.nameError ∧
    ∀ u : Unit, (mainRun mdWorld { text_file_path := "doc.txt", metadata := [] }).result ≠
      .ok u := by decide

/-- Claim C7: whenever `get_vs` returns (for any input), the value handed
back to the caller is `None` — the retriever constructed in its final
step is discarded, never returned. -/
theorem c7_returns_none (embed : String → List Int) (w : World)
    (txt_path db_dir search_type : String) (res : GetVsResult)
    (h : get_vs embed w txt_path db_dir search_type = .ok res) :
    res.pyReturn = none := by
  unfold get_vs at h
  split at h
  · cases h
  · split at h
    · split at h
      · cases h
      · cases h; rfl
    · split at h
      · cases h
      · cases h; rfl

/-- Witness for C7 at a concrete successful run. -/
theorem c7_witness :
    ∃ res : GetVsResult,
      get_vs embedLen w0 "t.txt" "./db" "similarity" = Except.ok res ∧ res.pyReturn = none :=
  ⟨_, rfl, c7_returns_none embedLen w0 "t.txt" "./db" "similarity" _ rfl⟩

/-- Claim C1: for every `db_dir`, the pipeline reuses a persisted index —
loading it with zero embedding calls on the current chunks and no write
to the world — if and only if the subdirectory `db_dir/index` exists and
contains at least 4 entries; otherwise it embeds the chunks (one call per
chunk) and builds and persists a fresh index into `db_dir`. -/
theorem c1_reuse_iff (embed : String → List Int) (w : World)
    (txt_path db_dir search_type content : String)
    (hf : alookup w.files txt_path = some content)
    (hst : search_type ∈ allowedSearchTypes) :
    (isdir w (db_dir ++ "/index") = true ∧ 4 ≤ (listdir w (db_dir ++ "/index")).length →
      get_vs embed w txt_path db_dir search_type =
        .ok { world := w, embedCalls := 0,
              retriever := { store := Chroma.loadPersisted w db_dir,
                             searchType := search_type },
              pyReturn := none }) ∧
    (¬ (isdir w (db_dir ++ "/index") = true ∧ 4 ≤ (listdir w (db_dir ++ "/index")).length) →
      get_vs embed w txt_path db_dir search_type =
        .ok { world := { w with
                dirs := aset w.dirs (db_dir ++ "/index") chromaIndexFiles,
                stores := aset w.stores db_dir (freshStore embed txt_path content) },
              embedCalls := (freshStore embed txt_path content).chunks.length,
              retriever := { store := some (freshStore embed txt_path content),
                             searchType := search_type },
              pyReturn := none }) := by
  have hload : TextLoader.load w txt_path = .ok [loadedDoc txt_path content] := by
    simp [TextLoader.load, hf, loadedDoc]
  constructor
  · intro hcond
    have hip : indexPresent w db_dir = true := by
      simp only [indexPresent, hcond.1, Bool.true_and, decide_eq_true_eq]
      omega
    simp [get_vs, hload, hip, as_retriever, hst]
  · intro hcond
    have hip : indexPresent w db_dir = false := by
      by_cases hd : isdir w (db_dir ++ "/index") = true
      · have hlen : ¬ 4 ≤ (listdir w (db_dir ++ "/index")).length := fun hl => hcond ⟨hd, hl⟩
        simp only [indexPresent, hd, Bool.true_and, decide_eq_false_iff_not]
        omega
      · rw [Bool.not_eq_true] at hd
        simp [indexPresent, hd]
    simp [get_vs, hload, hip, as_retriever, hst, Chroma.from_documents, freshStore, loadedDoc]

/-- Witness for C1 at a concrete world whose persistence area is empty
(the build-and-persist branch). -/
theorem c1_witness :
    ¬ (isdir w0 ("./db" ++ "/index") = true ∧ 4 ≤ (listdir w0 ("./db" ++ "/index")).length) ∧
    get_vs embedLen w0 "t.txt" "./db" "similarity" =
      .ok { world := { w0 with
              dirs := aset w0.dirs ("./db" ++ "/index") chromaIndexFiles,
              stores := aset w0.stores "./db" (freshStore embedLen "t.txt" "hi") },
            embedCalls := (freshStore embedLen "t.txt" "hi").chunks.length,
            retriever := { store := some (freshStore embedLen "t.txt" "hi"),
                           searchType := "similarity" },
            pyReturn := none } :=
  ⟨by decide,
   (c1_reuse_iff embedLen w0 "t.txt" "./db" "similarity" "hi" (by decide) (by decide)).2
     (by decide)⟩

/-- Claim C5: running the pipeline twice on the same source file against
an initially empty persistence directory embeds once per chunk on the
first run and zero times on the second (which takes the reuse path), and
the second run's retriever equals the first run's, so any fixed query
evaluates to the same results. -/
theorem c5_idempotent (embed : String → List Int) (w : World)
    (txt_path db_dir content : String)
    (hf : alookup w.files txt_path = some content)
    (hempty : alookup w.dirs (db_dir ++ "/index") = none) :
    ∃ r1 r2 : GetVsResult,
      get_vs embed w txt_path db_dir "similarity" = .ok r1 ∧
      get_vs embed r1.world txt_path db_dir "similarity" = .ok r2 ∧
      r1.embedCalls = (split_documents [loadedDoc txt_path content]).length ∧
      r2.embedCalls = 0 ∧
      r2.retriever = r1.retriever ∧
      ∀ (query : Retriever → String → List Document) (q : String),
        query r2.retriever q = query r1.retriever q := by
  have hload : TextLoader.load w txt_path = .ok [loadedDoc txt_path content] := by
    simp [TextLoader.load, hf, loadedDoc]
  have hip0 : indexPresent w db_dir = false := by
    simp [indexPresent, isdir, hempty]
  have h1 : get_vs embed w txt_path db_dir "similarity" =
      .ok { world := { w with
              dirs := aset w.dirs (db_dir ++ "/index") chromaIndexFiles,
              stores := aset w.stores db_dir (freshStore embed txt_path content) },
            embedCalls := (split_documents [loadedDoc txt_path content]).length,
            retriever := { store := some (freshStore embed txt_path content),
                           searchType := "similarity" },
            pyReturn := none } := by
    simp [get_vs, hload, hip0, as_retriever, allowedSearchTypes, Chroma.from_documents,
      freshStore]
  have hload1 : TextLoader.load
      { w with
          dirs := aset w.dirs (db_dir ++ "/index") chromaIndexFiles,
          stores := aset w.stores db_dir (freshStore embed txt_path content) } txt_path =
      .ok [loadedDoc txt_path content] := by
    simp [TextLoader.load, hf, loadedDoc]
  have hip1 : indexPresent
      { w with
          dirs := aset w.dirs (db_dir ++ "/index") chromaIndexFiles,
          stores := aset w.stores db_dir (freshStore embed txt_path content) } db_dir = true := by
    simp [indexPresent, isdir, listdir, alookup_aset_self, chromaIndexFiles]
  have hstore1 : Chroma.loadPersisted
      { w with
          dirs := aset w.dirs (db_dir ++ "/index") chromaIndexFiles,
          stores := aset w.stores db_dir (freshStore embed txt_path content) } db_dir =
      some (freshStore embed txt_path content) := by
    simp [Chroma.loadPersisted, alookup_aset_self]
  have h2 : get_vs embed
      { w with
          dirs := aset w.dirs (db_dir ++ "/index") chromaIndexFiles,
          stores := aset w.stores db_dir (freshStore embed txt_path content) }
      txt_path db_dir "similarity" =
      .ok { world := { w with
              dirs := aset w.dirs (db_dir ++ "/index") chromaIndexFiles,
              stores := aset w.stores db_dir (freshStore embed txt_path content) },
            embedCalls := 0,
            retriever := { store := some (freshStore embed txt_path content),
                           searchType := "similarity" },
            pyReturn := none } := by
    simp [get_vs, hload1, hip1, hstore1, as_retriever, allowedSearchTypes]
  exact ⟨_, _, h1, h2, rfl, rfl, rfl, fun query q => rfl⟩

/-- Witness for C5 at a concrete world whose persistence area is empty. -/
theorem c5_witness :
    alookup w0.files "t.txt" = some "hi" ∧
    alookup w0.dirs ("./db" ++ "/index") = none ∧
    (∃ r1 r2 : GetVsResult,
      get_vs embedLen w0 "t.txt" "./db" "similarity" = .ok r1 ∧
      get_vs embedLen r1.world "t.txt" "./db" "similarity" = .ok r2 ∧
      r1.embedCalls = (split_documents [loadedDoc "t.txt" "hi"]).length ∧
      r2.embedCalls = 0 ∧
      r2.retriever = r1.retriever ∧
      ∀ (query : Retriever → String → List Document) (q : String),
        query r2.retriever q = query r1.retriever q) :=
  ⟨rfl, rfl, c5_idempotent embedLen w0 "t.txt" "./db" "hi" rfl rfl⟩
